import Mathlib

/-!
Verification development for the conversion-routing core of the repository
(src/src/main.ts, src/src/handlers/pdftoimg.ts, src/src/handlers/imagesToPdf.ts
and the handler registry).

Modelling conventions:
* TypeScript `Uint8Array` payloads are `List Nat` (byte values).
* A fallible `async` operation is an `Except`; a thrown value is `.error`.
* The mutable process state touched by the routing core — the
  `window.supportedFormatCache` map and each handler's mutable
  `ready`/`supportedFormats` fields — is threaded explicitly as a `Sys`
  record.  Map updates are modelled by consing, with `List.lookup`
  returning the most recent binding.
* JavaScript reference equality on handler objects (`===`) is modelled by
  comparing handler names; the registry gives every handler a unique,
  stable name (spec §6).
* A handler's `init()` is modelled by a fixed outcome `initBeh`:
  either a thrown error or the post-init values of the mutable
  `ready`/`supportedFormats` fields (spec §6 requires `init` to be
  idempotent-in-effect).
* `doConvert` receives its input descriptor as an `Option FileFormat`:
  `attemptConvertPath` resolves it with `supportedFormats.find(...)!`,
  whose non-null assertion does not exist at runtime, so the handler can
  actually receive `undefined`.
-/

/-- One format variant as declared by a handler (src/src/FormatHandler.ts
`FileFormat`): media type, short format code, optional internal code,
extension, display name, direction flags and optional losslessness flag.
A missing `mime` is the empty string (JS falsy). -/
structure FileFormat where
  mime : String
  format : String
  internal : Option String := none
  extension : String := ""
  name : String := ""
  «from» : Bool := false
  «to» : Bool := false
  lossless : Option Bool := none
deriving DecidableEq, Repr

/-- A named byte payload (`FileData` in src/src/FormatHandler.ts). -/
structure FileData where
  name : String
  bytes : List Nat
deriving DecidableEq, Repr

/-- The behaviour of one conversion handler (`FormatHandler`): its unique
name, the initial values of its mutable `ready` / `supportedFormats`
fields, the `supportAnyInput` flag, the outcome of `init()` and the
conversion operation `doConvert`. -/
structure HandlerBeh where
  name : String
  ready : Bool := false
  supportedFormats : Option (List FileFormat) := none
  supportAnyInput : Bool := false
  initBeh : Except Unit (Bool × Option (List FileFormat)) := .ok (true, none)
  doConvert : List FileData → Option FileFormat → FileFormat → Except String (List FileData)

/-- One element of a conversion path (`ConvertPathNode`): a handler
paired with a format.  The entries of `allOptions` have the same shape
and are passed directly as path endpoints by the convert loop. -/
structure ConvertPathNode where
  handler : HandlerBeh
  format : FileFormat

/-- The mutable fields of a handler that `init()` can change. -/
structure HandlerSt where
  ready : Bool
  supportedFormats : Option (List FileFormat)
deriving DecidableEq, Repr

/-- The process-wide mutable state read and written by the routing core:
`window.supportedFormatCache` plus the mutable fields of every handler
that has been mutated so far (keyed by handler name). -/
structure Sys where
  cache : List (String × List FileFormat)
  hst : List (String × HandlerSt)
deriving DecidableEq, Repr

/-- Current mutable state of a handler: the most recent mutation if one
is recorded in `Sys`, otherwise the initial field values. -/
def lookupSt (σ : Sys) (h : HandlerBeh) : HandlerSt :=
  match σ.hst.lookup h.name with
  | some st => st
  | none => ⟨h.ready, h.supportedFormats⟩

/-- Record a mutation of a handler's `ready`/`supportedFormats` fields. -/
def setHst (σ : Sys) (n : String) (st : HandlerSt) : Sys :=
  { σ with hst := (n, st) :: σ.hst }

/-- `window.supportedFormatCache.set(name, formats)`. -/
def setCache (σ : Sys) (n : String) (fs : List FileFormat) : Sys :=
  { σ with cache := (n, fs) :: σ.cache }

/-- Result of executing one hop of `attemptConvertPath`: the new file
batch on success (`none` models every caught throw and the explicit
`return null`), the state after the hop, and whether `handler.init()`
was invoked during the hop. -/
structure HopOut where
  result : Option (List FileData)
  σ : Sys
  initInvoked : Bool
deriving Repr

/-- Second half of one hop of `attemptConvertPath` (src/src/main.ts
798-805), after the `supportedFormats` variable has been resolved to
`sf`: `if (!supportedFormats) throw ...` (caught, aborting the attempt);
the input descriptor is looked up with
`supportedFormats.find(c => c.mime === path[i].format.mime && c.from)!`
— the non-null assertion means a missing descriptor is passed on as
`undefined` (`none`), not an abort; then `doConvert` runs, and
`if (files.some(c => !c.bytes.length)) throw "Output is empty."`. -/
def hopConvert (σ : Sys) (files : List FileData) (prev next : ConvertPathNode)
    (sf : Option (List FileFormat)) (inv : Bool) : HopOut :=
  match sf with
  | none => ⟨none, σ, inv⟩
  | some sfl =>
    let inputFormat := sfl.find? fun c => c.mime = prev.format.mime && c.«from»
    match next.handler.doConvert files inputFormat next.format with
    | .error _ => ⟨none, σ, inv⟩
    | .ok files' =>
      if files'.any fun c => c.bytes.isEmpty then ⟨none, σ, inv⟩
      else ⟨some files', σ, inv⟩

/-- One iteration of the hop loop of `attemptConvertPath`
(src/src/main.ts 785-818) converting `prev` into `next`: read the format
cache; if the target handler is not ready, invoke `init()` (a throw
returns null immediately); when init leaves `supportedFormats` set, the
cache is updated and the local variable re-bound; then `hopConvert`. -/
def hopStep (σ : Sys) (files : List FileData) (prev next : ConvertPathNode) : HopOut :=
  let h := next.handler
  let st := lookupSt σ h
  let sf0 := σ.cache.lookup h.name
  if st.ready then hopConvert σ files prev next sf0 false
  else
    match h.initBeh with
    | .error _ => ⟨none, σ, true⟩
    | .ok (r, fs) =>
      let σ1 := setHst σ h.name ⟨r, fs⟩
      match fs with
      | some fsl => hopConvert (setCache σ1 h.name fsl) files prev next (some fsl) true
      | none => hopConvert σ1 files prev next sf0 true

/-- The hop loop of `attemptConvertPath`: `for (let i = 0; i < path.length - 1; i++)`
executes `hopStep` on each adjacent pair, re-binding `files` to each
hop's output and stopping with `none` at the first failed hop. -/
def runHops (σ : Sys) (files : List FileData) :
    List ConvertPathNode → Option (List FileData) × Sys
  | a :: b :: rest =>
    let h := hopStep σ files a b
    match h.result with
    | none => (none, h.σ)
    | some files' => runHops h.σ files' (b :: rest)
  | _ => (some files, σ)

/-- `attemptConvertPath(files, path)` (src/src/main.ts 773-822): run
every hop; on success return `{files, path}` with the final batch and
the path it was called with, on any hop failure return `null`.  The UI
status updates and `requestAnimationFrame` yields have no effect on the
result and are omitted. -/
def attemptConvertPath (σ : Sys) (files : List FileData)
    (path : List ConvertPathNode) :
    Option (List FileData × List ConvertPathNode) × Sys :=
  match runHops σ files path with
  | (some fs, σ') => (some (fs, path), σ')
  | (none, σ') => (none, σ')

/-- The final-hop substitution of `tryConvertByTraversing`
(src/src/main.ts 830-833): `if (path.at(-1)?.handler === to.handler)
path[path.length - 1] = to;` — reference equality of handler objects is
name equality (unique names). -/
def substFinal («to» : ConvertPathNode) (path : List ConvertPathNode) :
    List ConvertPathNode :=
  match path.getLast? with
  | some last =>
    if last.handler.name = «to».handler.name then path.dropLast ++ [«to»] else path
  | none => path

/-- Result of the driving loop of `tryConvertByTraversing`: the returned
value, the final state, and the list of (substituted) candidate paths
that were actually passed to `attemptConvertPath`, in order. -/
structure TraverseOut where
  result : Option (List FileData × List ConvertPathNode)
  σ : Sys
  attempted : List (List ConvertPathNode)

/-- The driving loop of `tryConvertByTraversing` (src/src/main.ts
824-838) over the sequence of candidate paths produced by
`traversionGraph.searchPath`: substitute the final hop, attempt the
path, return the first success, advance on failure, and return `null`
when the sequence is exhausted. -/
def tryConvertRun (σ : Sys) (files : List FileData) («to» : ConvertPathNode) :
    List (List ConvertPathNode) → TraverseOut
  | [] => ⟨none, σ, []⟩
  | p :: rest =>
    let p' := substFinal «to» p
    let att := attemptConvertPath σ files p'
    match att.1 with
    | some r => ⟨some r, att.2, [p']⟩
    | none =>
      let cont := tryConvertRun att.2 files «to» rest
      ⟨cont.result, cont.σ, p' :: cont.attempted⟩

/-- `tryConvertByTraversing(files, from, to)`.  The lazy candidate
sequence of `searchPath` lives in `TraversionGraph.ts`, which is not
part of the sources; it is abstracted as an oracle `searchPaths`
producing the finite list of candidates for a `(from, to)` query (spec
§4.3: a finite, lazily-produced sequence; the `simpleMode` argument is
folded into the oracle). -/
def tryConvertByTraversing
    (searchPaths : ConvertPathNode → ConvertPathNode → List (List ConvertPathNode))
    (σ : Sys) (files : List FileData) («from» «to» : ConvertPathNode) :
    Option (List FileData × List ConvertPathNode) × Sys :=
  let r := tryConvertRun σ files «to» (searchPaths «from» «to»)
  (r.result, r.σ)

/-- Options contributed to `allOptions` by one handler whose resolved
format list is `sf` (src/src/main.ts 660-664): every format with a
non-empty `mime`, paired with the handler, in declaration order. -/
def optionsFor (h : HandlerBeh) (sf : List FileFormat) : List ConvertPathNode :=
  (sf.filter fun f => f.mime ≠ "").map fun f => ⟨h, f⟩

/-- One iteration of the handler loop of `buildOptionList`
(src/src/main.ts 644-718): on a cache miss invoke `init()` (a throw
skips the handler, `continue`); when init leaves `supportedFormats` set,
memoize it in the cache; then resolve the format list from the cache (a
still-missing entry skips the handler) and push the handler's options.
Returns (options pushed, new cache, whether `init()` was invoked).  The
input/output button lists, the simple-mode de-duplication of buttons and
all other DOM work do not affect `allOptions` and are omitted. -/
def buildStep (cache : List (String × List FileFormat)) (h : HandlerBeh) :
    List ConvertPathNode × List (String × List FileFormat) × Bool :=
  match cache.lookup h.name with
  | some sf => (optionsFor h sf, cache, false)
  | none =>
    match h.initBeh with
    | .error _ => ([], cache, true)
    | .ok (_, fs) =>
      let cache' := match fs with
        | some fsl => (h.name, fsl) :: cache
        | none => cache
      match cache'.lookup h.name with
      | some sf => (optionsFor h sf, cache', true)
      | none => ([], cache', true)

/-- The handler loop of `buildOptionList`: fold `buildStep` over the
registry, concatenating the pushed options and threading the
`supportedFormatCache`. -/
def buildOptionList (cache : List (String × List FileFormat)) :
    List HandlerBeh → List ConvertPathNode × List (String × List FileFormat)
  | [] => ([], cache)
  | h :: hs =>
    let s := buildStep cache h
    let rest := buildOptionList s.2.1 hs
    (s.1 ++ rest.1, rest.2)

/-- The concrete handler instance wrapped by a `LazyHandler`
(src/unnamed/part_000): its mutable `ready`/`supportedFormats` fields
and the outcome of its `init()`. -/
structure InnerHandler where
  ready : Bool
  supportedFormats : Option (List FileFormat)
  initBeh : Except Unit (Bool × Option (List FileFormat))
deriving Repr

/-- Mutable state of a `LazyHandler` (src/unnamed/part_000 24-68): its
public `ready`/`supportedFormats` fields and the private `#instance`
(absent until the dynamic import has run). -/
structure LazyHandlerSt where
  name : String
  ready : Bool := false
  supportedFormats : Option (List FileFormat) := none
  inst : Option InnerHandler := none
deriving Repr

/-- `LazyHandler.init()` (src/unnamed/part_000 43-55): if the instance
already exists, re-run the instance's `init()` only when the instance is
not ready, then copy `ready`/`supportedFormats` from the instance;
otherwise run the dynamic import (`importBeh`), construct the instance
and initialize it.  Returns the new state (or a thrown error) together
with a flag telling whether the underlying instance's `init()` was
invoked. -/
def lazyInit (s : LazyHandlerSt) (importBeh : Except Unit InnerHandler) :
    Except Unit LazyHandlerSt × Bool :=
  match s.inst with
  | some i =>
    if i.ready then
      (.ok { s with ready := i.ready, supportedFormats := i.supportedFormats }, false)
    else
      match i.initBeh with
      | .error _ => (.error (), true)
      | .ok (r, fs) =>
        let i' : InnerHandler := { i with ready := r, supportedFormats := fs }
        (.ok { s with inst := some i', ready := i'.ready,
                      supportedFormats := i'.supportedFormats }, true)
  | none =>
    match importBeh with
    | .error _ => (.error (), false)
    | .ok i0 =>
      match i0.initBeh with
      | .error _ => (.error (), true)
      | .ok (r, fs) =>
        let i' : InnerHandler := { i0 with ready := r, supportedFormats := fs }
        (.ok { s with inst := some i', ready := r, supportedFormats := fs }, true)

/-- Modelled from the spec: `CommonFormats.ts` is not among the sources.
Per §3 a FormatDescriptor carries media type, format code, optional
internal code, extension, display name and direction flags; the builder
call `CommonFormats.PDF.builder("pdf").allowFrom()` is modelled as the
PDF descriptor with format code `"pdf"` and the input flag set.  The
`internal` code is `"pdf"`, as required by the `f.internal === "pdf"`
lookup in `handleMergeConvert` (src/src/main.ts 951). -/
def pdftoimgPdf : FileFormat :=
  { mime := "application/pdf", format := "pdf", internal := some "pdf",
    extension := "pdf", name := "Portable Document Format", «from» := true }

/-- Modelled from the spec: `CommonFormats.PNG.supported("png", false, true)`
(src/src/handlers/pdftoimg.ts 46) — PNG descriptor with format code
`"png"`, input flag false, output flag true. -/
def pdftoimgPng : FileFormat :=
  { mime := "image/png", format := "png", extension := "png",
    name := "Portable Network Graphics", «to» := true }

/-- Modelled from the spec: `CommonFormats.JPEG.supported("jpeg", false, true)`
(src/src/handlers/pdftoimg.ts 47) — JPEG descriptor with format code
`"jpeg"`, input flag false, output flag true. -/
def pdftoimgJpeg : FileFormat :=
  { mime := "image/jpeg", format := "jpeg", extension := "jpg",
    name := "JPEG", «to» := true }

/-- The declared `supportedFormats` of `pdftoimgHandler`
(src/src/handlers/pdftoimg.ts 44-48). -/
def pdftoimgSupportedFormats : List FileFormat :=
  [pdftoimgPdf, pdftoimgPng, pdftoimgJpeg]

/-- `inputFile.name.split(".")[0]` (src/src/handlers/pdftoimg.ts 84). -/
def baseNameOf (n : String) : String := (n.splitOn ".").headD ""

/-- `pdftoimgHandler.doConvert` (src/src/handlers/pdftoimg.ts 56-97).
The output-format guard throws `"Invalid output format."` unless the
format code is `"png"` or `"jpg"`.  The actual rasterization is done by
the external `pdftoimg-js` library; it is abstracted as a `render`
oracle mapping (pdf bytes, image type) to the per-page image payloads.
Reading `inputFormat.mime` for the `Blob` throws a `TypeError` when the
descriptor is `undefined`, which can only happen on a non-empty batch
(the loop body is never entered on an empty one). -/
def pdftoimgDoConvert (render : List Nat → String → List (List Nat))
    (inputFiles : List FileData) (inputFormat : Option FileFormat)
    (outputFormat : FileFormat) : Except String (List FileData) :=
  if outputFormat.format ≠ "png" ∧ outputFormat.format ≠ "jpg" then
    .error "Invalid output format."
  else
    match inputFiles, inputFormat with
    | [], _ => .ok []
    | _ :: _, none => .error "TypeError: Cannot read properties of undefined"
    | fs, some _ =>
      .ok ((fs.map fun f =>
        (render f.bytes outputFormat.format).enum.map fun p =>
          ⟨baseNameOf f.name ++ "_" ++ toString p.1 ++ "." ++ outputFormat.extension,
           p.2⟩).flatten)

/-- The `pdftoimg` handler as registered (src/src/handlers/pdftoimg.ts
40-54): `ready` is `true` from construction, `init()` only re-asserts
it, and the format list is declared statically. -/
def pdftoimgHandler (render : List Nat → String → List (List Nat)) : HandlerBeh :=
  { name := "pdftoimg", ready := true,
    supportedFormats := some pdftoimgSupportedFormats,
    initBeh := .ok (true, some pdftoimgSupportedFormats),
    doConvert := pdftoimgDoConvert render }

/-- Byte encoding of a string as produced by `TextEncoder` (UTF-8),
character by character. -/
def utf8Bytes (s : String) : List Nat :=
  (s.data.map fun c => (String.utf8EncodeChar c).map (·.toNat)).flatten

/-- Writer state of `buildPdf` (src/src/handlers/imagesToPdf.ts 96-99):
the bytes emitted so far and the recorded object offsets.  The running
`pos` always equals the length of the output, so it is not stored
separately. -/
structure PdfW where
  out : List Nat
  offsets : List Nat

/-- `write(str)` in `buildPdf`. -/
def pdfWrite (w : PdfW) (s : String) : PdfW := { w with out := w.out ++ utf8Bytes s }

/-- `writeRaw(bytes)` in `buildPdf`. -/
def pdfWriteRaw (w : PdfW) (bs : List Nat) : PdfW := { w with out := w.out ++ bs }

/-- `recordOffset()` in `buildPdf`. -/
def pdfRecord (w : PdfW) : PdfW := { w with offsets := w.offsets ++ [w.out.length] }

/-- `String.padStart(10, "0")` on a decimal number. -/
def pad10 (n : Nat) : String :=
  let s := toString n
  String.mk (List.replicate (10 - s.length) '0') ++ s

/-- `pageObjNums.map(n => n + " 0 R").join(" ")`. -/
def kidsStr (nums : List Nat) : String :=
  String.intercalate " " (nums.map fun n => toString n ++ " 0 R")

/-- The three objects `buildPdf` emits for page `i` (page object, image
XObject, content stream; src/src/handlers/imagesToPdf.ts 142-181).
A page is (width, height, jpegBytes). -/
def pdfPageChunk (i : Nat) (page : Nat × Nat × List Nat) (w : PdfW) : PdfW :=
  let pageObjNum := 3 + i * 3
  let imgObjNum := 4 + i * 3
  let contentObjNum := 5 + i * 3
  let wd := page.1
  let ht := page.2.1
  let jpeg := page.2.2
  let contentStr := "q\n" ++ toString wd ++ " 0 0 " ++ toString ht ++
    " 0 0 cm\n/Img" ++ toString i ++ " Do\nQ\n"
  let contentBytes := utf8Bytes contentStr
  let w := pdfRecord w
  let w := pdfWrite w (toString pageObjNum ++ " 0 obj\n")
  let w := pdfWrite w ("<< /Type /Page /Parent 2 0 R /MediaBox [0 0 " ++
    toString wd ++ " " ++ toString ht ++ "]\n")
  let w := pdfWrite w ("   /Contents " ++ toString contentObjNum ++ " 0 R\n")
  let w := pdfWrite w ("   /Resources << /XObject << /Img" ++ toString i ++ " " ++
    toString imgObjNum ++ " 0 R >> >> >>\n")
  let w := pdfWrite w "endobj\n"
  let w := pdfRecord w
  let w := pdfWrite w (toString imgObjNum ++ " 0 obj\n")
  let w := pdfWrite w ("<< /Type /XObject /Subtype /Image /Width " ++ toString wd ++
    " /Height " ++ toString ht ++ "\n")
  let w := pdfWrite w "   /ColorSpace /DeviceRGB /BitsPerComponent 8\n"
  let w := pdfWrite w ("   /Filter /DCTDecode /Length " ++ toString jpeg.length ++ " >>\n")
  let w := pdfWrite w "stream\n"
  let w := pdfWriteRaw w jpeg
  let w := pdfWrite w "\nendstream\nendobj\n"
  let w := pdfRecord w
  let w := pdfWrite w (toString contentObjNum ++ " 0 obj\n")
  let w := pdfWrite w ("<< /Length " ++ toString contentBytes.length ++ " >>\n")
  let w := pdfWrite w "stream\n"
  let w := pdfWriteRaw w contentBytes
  pdfWrite w "\nendstream\nendobj\n"

/-- `buildPdf(pages)` (src/src/handlers/imagesToPdf.ts 92-207): header,
catalog, pages object, three objects per page, cross-reference table and
trailer, concatenated. -/
def buildPdf (pages : List (Nat × Nat × List Nat)) : List Nat :=
  let numPages := pages.length
  let w : PdfW := ⟨[], []⟩
  let w := pdfWrite w "%PDF-1.4\n%\xC0\xC1\xC2\xC3\n"
  let w := pdfRecord w
  let w := pdfWrite w "1 0 obj\n<< /Type /Catalog /Pages 2 0 R >>\nendobj\n"
  let pageObjNums := (List.range numPages).map fun i => 3 + i * 3
  let w := pdfRecord w
  let w := pdfWrite w ("2 0 obj\n<< /Type /Pages /Kids [" ++ kidsStr pageObjNums ++
    "] /Count " ++ toString numPages ++ " >>\nendobj\n")
  let w := pages.enum.foldl (fun w p => pdfPageChunk p.1 p.2 w) w
  let xrefOffset := w.out.length
  let totalObjs := 2 + numPages * 3
  let w := pdfWrite w ("xref\n0 " ++ toString (totalObjs + 1) ++ "\n")
  let w := pdfWrite w "0000000000 65535 f \n"
  let w := (List.range totalObjs).foldl
    (fun w i => pdfWrite w (pad10 (w.offsets.getD i 0) ++ " 00000 n \n")) w
  let w := pdfWrite w ("trailer\n<< /Size " ++ toString (totalObjs + 1) ++
    " /Root 1 0 R >>\n")
  let w := pdfWrite w ("startxref\n" ++ toString xrefOffset ++ "\n%%EOF\n")
  w.out

/-- Modelled from the spec: `CommonFormats.ts` is not among the sources;
these are the four descriptors declared by `imagesToPdfHandler`
(src/src/handlers/imagesToPdf.ts 11-16), with format codes from the
builder arguments and the PDF `internal` code required by the
`f.internal === "pdf"` output lookup. -/
def imagesToPdfFormats : List FileFormat :=
  [{ mime := "image/jpeg", format := "jpeg", extension := "jpg", name := "JPEG",
     «from» := true, lossless := some true },
   { mime := "image/png", format := "png", extension := "png",
     name := "Portable Network Graphics", «from» := true, lossless := some true },
   { mime := "image/webp", format := "webp", extension := "webp", name := "WebP",
     «from» := true },
   { mime := "application/pdf", format := "pdf", internal := some "pdf",
     extension := "pdf", name := "Portable Document Format", «to» := true,
     lossless := some true }]

/-- `name.split(".").slice(0, -1).join(".")` (src/src/handlers/imagesToPdf.ts 81). -/
def stripLastDotComponent (n : String) : String :=
  String.intercalate "." ((n.splitOn ".").dropLast)

/-- `imagesToPdfHandler.doConvert` (src/src/handlers/imagesToPdf.ts
24-85): reject a non-PDF output; render every input image to a
(width, height, jpegBytes) page — the Canvas/Image work is abstracted as
the `render` oracle, and reading `inputFormat.mime` for the `Blob`
throws a `TypeError` when the descriptor is `undefined`, which only
happens if the loop body runs, i.e. on a non-empty batch; finally emit
one file containing `buildPdf` of the pages.  On an empty batch the loop
body never runs, so the handler succeeds without ever touching the input
descriptor, returning `merged.pdf` with the empty-page PDF skeleton. -/
def imagesToPdfDoConvert (render : FileData → Nat × Nat × List Nat)
    (inputFiles : List FileData) (inputFormat : Option FileFormat)
    (outputFormat : FileFormat) : Except String (List FileData) :=
  if outputFormat.internal ≠ some "pdf" then
    .error "imagesToPdf handler only supports PDF output."
  else
    match inputFiles, inputFormat with
    | _ :: _, none => .error "TypeError: Cannot read properties of undefined"
    | fs, _ =>
      let pages := fs.map render
      let outputName := match fs with
        | [f] => stripLastDotComponent f.name ++ ".pdf"
        | _ => "merged.pdf"
      .ok [⟨outputName, buildPdf pages⟩]

/-- The `imagesToPdf` handler as registered (src/src/handlers/imagesToPdf.ts
8-22): `ready` starts `false`, `init()` sets it to `true`, the format
list is declared statically. -/
def imagesToPdfHandler (render : FileData → Nat × Nat × List Nat) : HandlerBeh :=
  { name := "imagesToPdf", ready := false,
    supportedFormats := some imagesToPdfFormats,
    initBeh := .ok (true, some imagesToPdfFormats),
    doConvert := imagesToPdfDoConvert render }

/-- `String.toLowerCase()` character by character (the extensions and
format codes involved are ASCII). -/
def toLowerStr (s : String) : String := String.mk (s.data.map Char.toLower)

/-- Index (in characters) of the last `'.'` of a string, as used by
`String.lastIndexOf('.')` (the names involved are plain BMP text, so
UTF-16 indices coincide with character indices). -/
def lastIndexOfDot (s : String) : Option Nat :=
  ((s.toList.enum.filter fun p => p.2 = '.').map fun p => p.1).getLast?

/-- `buildOutputFilename(originalName, outputExtension)`
(src/src/main.ts 857-861): strip the extension when the last dot exists
at a positive index, then append the lower-cased output extension. -/
def buildOutputFilename (originalName outputExtension : String) : String :=
  let baseName := match lastIndexOfDot originalName with
    | some i => if 0 < i then String.mk (originalName.toList.take i) else originalName
    | none => originalName
  baseName ++ "." ++ toLowerStr outputExtension

/-- `name.replace(/\.([^.]+)$/, "_k.$1")` (src/src/main.ts 1074): insert
`_k` before the final extension; no substitution when the name has no
dot or ends in a dot. -/
def renameWithIndex (name : String) (k : Nat) : String :=
  match lastIndexOfDot name with
  | none => name
  | some i =>
    let l := name.toList
    let suffix := l.drop (i + 1)
    if suffix = [] then name
    else String.mk (l.take i) ++ "_" ++ toString k ++ "." ++ String.mk suffix

/-- One file of the selected batch as the convert-button handler sees it
(src/src/main.ts 9-12 with the bytes already read): name, payload, and
the optional per-file output override index into `allOptions`. -/
structure BatchItem where
  name : String
  bytes : List Nat
  outputFormatIndex : Option Nat
deriving DecidableEq, Repr

/-- One produced output file as pushed to `allOutputFiles` or handed to
`downloadFile` (src/src/main.ts 1023, 1075). -/
structure OutFile where
  name : String
  bytes : List Nat
  mime : String
deriving DecidableEq, Repr

/-- `outputFormat.extension || outputFormat.format` (src/src/main.ts 1070). -/
def extOf (f : FileFormat) : String :=
  if f.extension ≠ "" then f.extension else f.format

/-- Result of processing one batch file inside the convert-button loop:
the identity download (if any), the files appended to `allOutputFiles`,
whether the file counted as failed, whether the path search/conversion
machinery (`tryConvertByTraversing`) was invoked, and the state after
the file. -/
structure FileOut where
  identity : Option OutFile
  outputs : List OutFile
  failed : Bool
  traversed : Bool
  σ : Sys

/-- Resolution of a batch file's output option (src/src/main.ts
1032-1034): the per-file override takes priority, the global selection
is the fallback; an out-of-range override index yields `undefined`. -/
def resolveOutputOption (allOpts : List ConvertPathNode)
    (globalOut : Option ConvertPathNode) (bf : BatchItem) : Option ConvertPathNode :=
  match bf.outputFormatIndex with
  | some i => allOpts.get? i
  | none => globalOut

/-- The body of the per-file loop of `ui.convertButton.onclick`
(src/src/main.ts 1029-1079): resolve the file's output option (per-file
override first, else the global selection; an out-of-range override
index resolves to `undefined` and the file is skipped); if the selected
input option's mime equals the output mime, download the input bytes
unchanged and continue; otherwise route through
`tryConvertByTraversing`, a `null` result marking the file failed, and a
success contributing one renamed output per produced file. -/
def processOneFile
    (searchPaths : ConvertPathNode → ConvertPathNode → List (List ConvertPathNode))
    (allOpts : List ConvertPathNode) (inputOption : ConvertPathNode)
    (globalOut : Option ConvertPathNode) (σ : Sys) (bf : BatchItem) : FileOut :=
  match resolveOutputOption allOpts globalOut bf with
  | none => ⟨none, [], true, false, σ⟩
  | some opt =>
    let outputFormat := opt.format
    if inputOption.format.mime = outputFormat.mime then
      ⟨some ⟨bf.name, bf.bytes, inputOption.format.mime⟩, [], false, false, σ⟩
    else
      let inputFileData : List FileData := [⟨bf.name, bf.bytes⟩]
      let output := tryConvertByTraversing searchPaths σ inputFileData inputOption opt
      match output.1 with
      | none => ⟨none, [], true, true, output.2⟩
      | some (outFiles, _) =>
        let outputExt := extOf outputFormat
        let outs := outFiles.enum.map fun p =>
          OutFile.mk
            (if outFiles.length = 1 then buildOutputFilename bf.name outputExt
             else renameWithIndex (buildOutputFilename bf.name outputExt) (p.1 + 1))
            p.2.bytes outputFormat.mime
        ⟨none, outs, false, true, output.2⟩

/-- The batch loop of `ui.convertButton.onclick` (src/src/main.ts
1025-1080): before each file the cooperative cancellation flag is read —
`cancel k` is the value of `conversionCancelled` at the check preceding
the `k`-th file — and a set flag breaks out of the loop; otherwise the
file is processed and its outputs accumulated.  Returns the identity
downloads performed during the loop, the accumulated `allOutputFiles`,
whether the loop was broken by cancellation, and the final state. -/
def convertBatchAux
    (searchPaths : ConvertPathNode → ConvertPathNode → List (List ConvertPathNode))
    (allOpts : List ConvertPathNode) (inputOption : ConvertPathNode)
    (globalOut : Option ConvertPathNode) (cancel : Nat → Bool) :
    Nat → Sys → List OutFile → List OutFile → List BatchItem →
    List OutFile × List OutFile × Bool × Sys
  | _, σ, idAcc, outAcc, [] => (idAcc, outAcc, false, σ)
  | k, σ, idAcc, outAcc, bf :: rest =>
    if cancel k then (idAcc, outAcc, true, σ)
    else
      let r := processOneFile searchPaths allOpts inputOption globalOut σ bf
      convertBatchAux searchPaths allOpts inputOption globalOut cancel
        (k + 1) r.σ (idAcc ++ r.identity.toList) (outAcc ++ r.outputs) rest

/-- Result of a whole batch conversion: identity downloads, accumulated
`allOutputFiles`, the cancellation outcome, everything delivered to the
user, and the final state. -/
structure BatchResult where
  identityDownloads : List OutFile
  allOutputFiles : List OutFile
  cancelled : Bool
  delivered : List OutFile
  σ : Sys

/-- The whole batch conversion of `ui.convertButton.onclick`
(src/src/main.ts 1025-1115): run the loop from file 0; afterwards every
file in `allOutputFiles` is downloaded — on cancellation by the explicit
loop at src/src/main.ts 1085-1087, otherwise by the normal download path
(the optional ZIP bundling changes the packaging, not the set of
delivered files).  Identity downloads already happened during the loop,
so everything delivered is their concatenation with `allOutputFiles`. -/
def convertBatch
    (searchPaths : ConvertPathNode → ConvertPathNode → List (List ConvertPathNode))
    (allOpts : List ConvertPathNode) (inputOption : ConvertPathNode)
    (globalOut : Option ConvertPathNode) (cancel : Nat → Bool)
    (σ : Sys) (files : List BatchItem) : BatchResult :=
  let r := convertBatchAux searchPaths allOpts inputOption globalOut cancel 0 σ [] [] files
  ⟨r.1, r.2.1, r.2.2.1, r.1 ++ r.2.1, r.2.2.2⟩

/-- Modelled from the spec: the CapabilityGraph edge rule of §4.2
(`TraversionGraph.ts` is not among the sources).  Handler `h` labels an
edge from the node class of `src` to the node class of `dst`
(simple-mode node identity is `(mediaType, formatCode)`, §3) iff it
declares an acceptable-input descriptor in the source class and a
producible-output descriptor in the destination class — the in/out cross
product within the handler, excluding a format paired with itself — or,
when flagged `supportAnyInput`, declares an output descriptor in the
destination class, giving an edge from every other node. -/
def declaresEdge (h : HandlerBeh) (src dst : FileFormat) : Bool :=
  match h.supportedFormats with
  | some fs =>
    (fs.any fun a =>
      a.«from» && a.mime = src.mime && a.format = src.format &&
        fs.any fun b =>
          b.«to» && b.mime = dst.mime && b.format = dst.format && a ≠ b)
    || (h.supportAnyInput &&
        ¬(src.mime = dst.mime ∧ src.format = dst.format) &&
        fs.any fun b => b.«to» && b.mime = dst.mime && b.format = dst.format)
  | none => false

/-! Concrete fixtures used by the closed witness and counterexample
theorems below: small formats, handlers and states on which the embedded
operations are evaluated. -/

/-- Fixture format `text/a`, both directions. -/
def fxFmtA : FileFormat := { mime := "text/a", format := "a", «from» := true, «to» := true }

/-- Fixture format `text/b`, both directions. -/
def fxFmtB : FileFormat := { mime := "text/b", format := "b", «from» := true, «to» := true }

/-- Fixture handler whose conversion returns its input unchanged. -/
def fxConvOk : HandlerBeh :=
  { name := "ok", ready := true, doConvert := fun files _ _ => .ok files }

/-- Fixture handler whose conversion yields a single zero-byte file. -/
def fxConvEmpty : HandlerBeh :=
  { name := "empty", ready := true, doConvert := fun _ _ _ => .ok [⟨"o", []⟩] }

/-- Fixture handler whose conversion always throws. -/
def fxConvErr : HandlerBeh :=
  { name := "err", ready := true, doConvert := fun _ _ _ => .error "fail" }

/-- Fixture handler that ignores its input descriptor and produces a
non-empty file. -/
def fxConvIgnore : HandlerBeh :=
  { name := "ig", ready := true, doConvert := fun _ _ _ => .ok [⟨"o", [1]⟩] }

/-- Fixture handler whose `init()` throws. -/
def fxInitErr : HandlerBeh :=
  { name := "bad", ready := false, initBeh := .error (),
    doConvert := fun _ _ _ => .error "unreachable" }

/-- Fixture state caching format lists for the fixture handlers. -/
def fxσ : Sys :=
  ⟨[("ok", [fxFmtA, fxFmtB]), ("empty", [fxFmtA, fxFmtB]),
    ("err", [fxFmtA, fxFmtB]), ("ig", [])], []⟩

/-- Fixture input batch: one non-empty file. -/
def fxFiles : List FileData := [⟨"f.a", [1, 2]⟩]

/-- Destination format exactly as the caller requests it (extension `"B"`). -/
def fxDstExact : FileFormat :=
  { mime := "text/d", format := "d", extension := "B", «to» := true }

/-- A second descriptor of the same simple-mode class `(text/d, d)` but
with different handler-specific metadata (extension `"A"`). -/
def fxDstVar : FileFormat :=
  { mime := "text/d", format := "d", extension := "A", «to» := true }

/-- Fixture handler `h1` reaching the destination class; its `init()`
throws so attempts through it fail. -/
def fxH1 : HandlerBeh :=
  { name := "h1", ready := false, initBeh := .error (),
    doConvert := fun _ _ _ => .error "x" }

/-- Fixture handler `h2`, the caller's requested handler, declaring the
source class `(text/a, a)` as acceptable input and the exact destination
descriptor as producible output — so it labels a genuine §4.2 edge from
the candidate's start node into the destination class. -/
def fxH2 : HandlerBeh :=
  { name := "h2", ready := true, supportedFormats := some [fxFmtA, fxDstExact],
    doConvert := fun files _ _ => .ok files }

/-- The caller's requested destination node `(h2, exact format)`. -/
def fxC1To : ConvertPathNode := ⟨fxH2, fxDstExact⟩

/-- A candidate path reaching the destination class via `h1`, not `h2`. -/
def fxC1Path : List ConvertPathNode := [⟨fxConvOk, fxFmtA⟩, ⟨fxH1, fxDstVar⟩]

/-- Fixture inner handler of a `LazyHandler` that already initialized
successfully. -/
def fxInner : InnerHandler := ⟨true, some [fxFmtA], .ok (true, some [fxFmtA])⟩

/-- Fixture `LazyHandler` state holding a ready instance. -/
def fxLazy : LazyHandlerSt :=
  { name := "lz", ready := false, supportedFormats := none, inst := some fxInner }

/-- Fixture render oracle for the `imagesToPdf` handler. -/
def fxRender : FileData → Nat × Nat × List Nat := fun _ => (1, 1, [255, 216])

/-- The registered `imagesToPdf` handler under the fixture oracle. -/
def fxI2P : HandlerBeh := imagesToPdfHandler fxRender

/-- A GIF format node: `imagesToPdf` declares no input descriptor with
this mime. -/
def fxGif : FileFormat := { mime := "image/gif", format := "gif", «from» := true, «to» := true }

/-- Candidate path hopping from a GIF node into the `imagesToPdf` PDF
output. -/
def fxI2PPath : List ConvertPathNode :=
  [⟨fxI2P, fxGif⟩, ⟨fxI2P, imagesToPdfFormats.getLastD fxGif⟩]

/-- Fixture batch for the batch-loop witnesses. -/
def fxBatch : List BatchItem := [⟨"x.a", [1], none⟩, ⟨"y.a", [2], none⟩]

/-- Cancellation trace that requests cancellation exactly before the
second file. -/
def fxCancelAt1 : Nat → Bool := fun i => i = 1

/-- A search-path oracle producing no candidates. -/
def fxNoPaths : ConvertPathNode → ConvertPathNode → List (List ConvertPathNode) := fun _ _ => []

/-- Fixture handler with a cached entry under the name `"c"`. -/
def fxCached : HandlerBeh :=
  { name := "c", ready := true, doConvert := fun files _ _ => .ok files }

/-- A candidate path whose final hop already uses the requested handler
`h2`, but with the variant descriptor. -/
def fxSamePath : List ConvertPathNode := [⟨fxConvOk, fxFmtA⟩, ⟨fxH2, fxDstVar⟩]

/-- Fixture render oracle for the `pdftoimg` handler. -/
def fxPRender : List Nat → String → List (List Nat) := fun _ _ => []

/-! Shared lemmas about the embedded operations. -/

/-- Unfolding of `runHops` on a path with at least one hop. -/
theorem runHops_cons (σ : Sys) (files : List FileData) (a b : ConvertPathNode)
    (rest : List ConvertPathNode) :
    runHops σ files (a :: b :: rest) =
      match (hopStep σ files a b).result with
      | none => (none, (hopStep σ files a b).σ)
      | some files' => runHops (hopStep σ files a b).σ files' (b :: rest) := rfl

/-- Executing a path that continues past node `a` first executes the
hops up to `a` and then continues from `a` with the batch and state
produced so far. -/
theorem runHops_compose (a : ConvertPathNode) (ys : List ConvertPathNode) :
    ∀ (xs : List ConvertPathNode) (σ : Sys) (f : List FileData),
    runHops σ f (xs ++ a :: ys) =
      match runHops σ f (xs ++ [a]) with
      | (some f', σ') => runHops σ' f' (a :: ys)
      | (none, σ') => (none, σ') := by
  intro xs
  induction xs with
  | nil => intro σ f; simp [runHops]
  | cons x xs ih =>
    intro σ f
    cases xs with
    | nil =>
      simp only [List.cons_append, List.nil_append, runHops_cons]
      cases hres : (hopStep σ f x a).result with
      | none => simp [runHops]
      | some f' => simp [runHops]
    | cons y xs₃ =>
      simp only [List.cons_append, runHops_cons]
      cases hres : (hopStep σ f x y).result with
      | none => simp
      | some f' => simpa using ih (hopStep σ f x y).σ f'

/-- A failed hop list gives a null attempt. -/
theorem attemptConvertPath_none_of_runHops (σ : Sys) (files : List FileData)
    (path : List ConvertPathNode) (σ' : Sys)
    (h : runHops σ files path = (none, σ')) :
    (attemptConvertPath σ files path).1 = none := by
  simp [attemptConvertPath, h]

/-- Unfolding of `tryConvertRun` on a non-empty candidate list when the
first (substituted) attempt succeeds. -/
theorem tryConvertRun_cons_some (σ : Sys) (files : List FileData)
    («to» p : _) (rest : List (List ConvertPathNode))
    (r : List FileData × List ConvertPathNode) (σ' : Sys)
    (h : attemptConvertPath σ files (substFinal «to» p) = (some r, σ')) :
    tryConvertRun σ files «to» (p :: rest) = ⟨some r, σ', [substFinal «to» p]⟩ := by
  simp [tryConvertRun, h]

/-- Unfolding of `tryConvertRun` on a non-empty candidate list when the
first (substituted) attempt fails. -/
theorem tryConvertRun_cons_none (σ : Sys) (files : List FileData)
    («to» p : _) (rest : List (List ConvertPathNode)) (σ' : Sys)
    (h : attemptConvertPath σ files (substFinal «to» p) = (none, σ')) :
    tryConvertRun σ files «to» (p :: rest) =
      ⟨(tryConvertRun σ' files «to» rest).result,
       (tryConvertRun σ' files «to» rest).σ,
       substFinal «to» p :: (tryConvertRun σ' files «to» rest).attempted⟩ := by
  simp [tryConvertRun, h]

/-- The attempted paths of a run are the substituted images of an
initial segment of the candidate list. -/
theorem tryConvertRun_attempted_take :
    ∀ (paths : List (List ConvertPathNode)) (σ : Sys) (files : List FileData)
      («to» : ConvertPathNode),
    ∃ k, k ≤ paths.length ∧
      (tryConvertRun σ files «to» paths).attempted =
        (paths.take k).map (substFinal «to») := by
  intro paths
  induction paths with
  | nil => intro σ files t; exact ⟨0, by simp [tryConvertRun]⟩
  | cons p rest ih =>
    intro σ files t
    rcases hatt : attemptConvertPath σ files (substFinal t p) with ⟨res, σ'⟩
    cases res with
    | some r =>
      refine ⟨1, by simp, ?_⟩
      rw [tryConvertRun_cons_some σ files t p rest r σ' hatt]
      simp
    | none =>
      obtain ⟨k, hk, hatr⟩ := ih σ' files t
      refine ⟨k + 1, by simpa using hk, ?_⟩
      rw [tryConvertRun_cons_none σ files t p rest σ' hatt]
      simp [hatr]

/-- `buildOptionList` over a concatenated registry: the options of the
first part followed by the options of the second computed in the cache
the first part left behind. -/
theorem buildOptionList_append :
    ∀ (xs ys : List HandlerBeh) (cache : List (String × List FileFormat)),
    buildOptionList cache (xs ++ ys) =
      ((buildOptionList cache xs).1 ++
         (buildOptionList (buildOptionList cache xs).2 ys).1,
       (buildOptionList (buildOptionList cache xs).2 ys).2) := by
  intro xs
  induction xs with
  | nil => intro ys cache; simp [buildOptionList]
  | cons h hs ih =>
    intro ys cache
    simp only [List.cons_append, buildOptionList, List.append_eq]
    rw [ih ys (buildStep cache h).2.1]
    simp [List.append_assoc]

/-- The conversion half of a hop reports exactly the init-invocation
flag it was given. -/
theorem hopConvert_initInvoked (σ : Sys) (files : List FileData)
    (a b : ConvertPathNode) (sf : Option (List FileFormat)) (inv : Bool) :
    (hopConvert σ files a b sf inv).initInvoked = inv := by
  unfold hopConvert
  cases sf with
  | none => rfl
  | some sfl =>
    dsimp only
    split
    · rfl
    · split <;> rfl

/-! Claim theorems. -/

/-- C1 (amended): in `tryConvertByTraversing`, the first attempted path
is always the substituted image of the first yielded candidate, and the
final-hop substitution to the caller's exact `(handler, format)` pair
`to` fires exactly when the candidate's final hop already uses the
caller's requested handler `to.handler`; a candidate reaching the
destination via a different handler is attempted unchanged. -/
theorem tryConvertByTraversing_final_hop_substitution («to» : ConvertPathNode)
    (p : List ConvertPathNode) (last : ConvertPathNode)
    (hlast : p.getLast? = some last) :
    (last.handler.name = «to».handler.name →
      substFinal «to» p = p.dropLast ++ [«to»])
    ∧ (last.handler.name ≠ «to».handler.name → substFinal «to» p = p)
    ∧ (∀ (σ : Sys) (files : List FileData) (rest : List (List ConvertPathNode)),
        (tryConvertRun σ files «to» (p :: rest)).attempted.head? =
          some (substFinal «to» p)) := by
  refine ⟨fun heq => ?_, fun hne => ?_, fun σ files rest => ?_⟩
  · simp [substFinal, hlast, heq]
  · simp [substFinal, hlast, hne]
  · rcases hatt : attemptConvertPath σ files (substFinal «to» p) with ⟨res, σ'⟩
    cases res with
    | some r => rw [tryConvertRun_cons_some σ files «to» p rest r σ' hatt]; rfl
    | none => rw [tryConvertRun_cons_none σ files «to» p rest σ' hatt]; rfl

/-- C1 (counterexample): the requested handler `h2` — input-capable on
the candidate's source class `(text/a, a)` — labels a §4.2 edge from
that source into the destination class `(text/d, d)`, entering it via
the caller's exact requested descriptor; the single yielded candidate
reaches the same destination via the different handler `h1`; yet the
path is attempted exactly as yielded — its final hop is neither the
requested handler nor the requested format, contradicting the claimed
substitution. -/
theorem final_hop_substitution_cx :
    declaresEdge fxH2 fxFmtA fxDstVar = true
    ∧ ((fxH2.supportedFormats.getD []).find? fun b =>
        b.«to» && b.mime = fxDstVar.mime && b.format = fxDstVar.format) =
          some fxC1To.format
    ∧ fxC1Path.head?.map (fun n => n.format) = some fxFmtA
    ∧ (fxC1Path.getLast?.map fun n => n.handler.name) = some "h1"
    ∧ fxC1To.handler.name = "h2"
    ∧ (tryConvertRun ⟨[], []⟩ fxFiles fxC1To [fxC1Path]).attempted = [fxC1Path]
    ∧ (fxC1Path.getLast?.map fun n => n.handler.name) ≠ some fxC1To.handler.name
    ∧ (fxC1Path.getLast?.map fun n => n.format) ≠ some fxC1To.format := by
  exact ⟨by decide, by decide, rfl, rfl, rfl, rfl, by decide, by decide⟩

/-- C1 (witness): on a candidate ending in the requested handler the
final hop is substituted to the exact pair; on one ending in a different
handler the candidate is attempted unchanged. -/
theorem tryConvertByTraversing_final_hop_substitution_witness :
    substFinal fxC1To fxSamePath = fxSamePath.dropLast ++ [fxC1To]
    ∧ substFinal fxC1To fxC1Path = fxC1Path
    ∧ (tryConvertRun ⟨[], []⟩ fxFiles fxC1To (fxC1Path :: [])).attempted.head? =
        some (substFinal fxC1To fxC1Path) :=
  ⟨(tryConvertByTraversing_final_hop_substitution fxC1To fxSamePath
      ⟨fxH2, fxDstVar⟩ rfl).1 rfl,
   (tryConvertByTraversing_final_hop_substitution fxC1To fxC1Path
      ⟨fxH1, fxDstVar⟩ rfl).2.1 (by decide),
   (tryConvertByTraversing_final_hop_substitution fxC1To fxC1Path
      ⟨fxH1, fxDstVar⟩ rfl).2.2 ⟨[], []⟩ fxFiles []⟩

/-- C2: when a hop's `doConvert` call returns a batch containing a
zero-length payload, the hop is treated as failed — producing exactly
the same `HopOut` `⟨none, σ, false⟩` as an outright conversion throw —
and `attemptConvertPath` on the path starting at that hop returns
`null`. -/
theorem attemptConvertPath_empty_output_is_failure (σ : Sys)
    (files : List FileData) (a b : ConvertPathNode)
    (rest : List ConvertPathNode) (sf : List FileFormat)
    (hready : (lookupSt σ b.handler).ready = true)
    (hcache : σ.cache.lookup b.handler.name = some sf) :
    (∀ files', b.handler.doConvert files
        (sf.find? fun c => c.mime = a.format.mime && c.«from») b.format = .ok files' →
      files'.any (fun c => c.bytes.isEmpty) = true →
      hopStep σ files a b = ⟨none, σ, false⟩
      ∧ (attemptConvertPath σ files (a :: b :: rest)).1 = none)
    ∧ (∀ e, b.handler.doConvert files
        (sf.find? fun c => c.mime = a.format.mime && c.«from») b.format = .error e →
      hopStep σ files a b = ⟨none, σ, false⟩
      ∧ (attemptConvertPath σ files (a :: b :: rest)).1 = none) := by
  have hstep : ∀ out : HopOut, hopStep σ files a b = out →
      out.result = none → (attemptConvertPath σ files (a :: b :: rest)).1 = none := by
    intro out hout hres
    apply attemptConvertPath_none_of_runHops σ files _ out.σ
    rw [runHops_cons, hout, hres]
  constructor
  · intro files' hconv hempty
    have h1 : hopStep σ files a b = ⟨none, σ, false⟩ := by
      simp [hopStep, hready, hcache, hopConvert, hconv, hempty]
    exact ⟨h1, hstep _ h1 rfl⟩
  · intro e hconv
    have h1 : hopStep σ files a b = ⟨none, σ, false⟩ := by
      simp [hopStep, hready, hcache, hopConvert, hconv]
    exact ⟨h1, hstep _ h1 rfl⟩

/-- C2 (witness): a ready, cached handler whose conversion yields one
zero-byte file fails the hop and nulls the attempt. -/
theorem attemptConvertPath_empty_output_is_failure_witness :
    hopStep fxσ fxFiles ⟨fxConvOk, fxFmtA⟩ ⟨fxConvEmpty, fxFmtB⟩ = ⟨none, fxσ, false⟩
    ∧ (attemptConvertPath fxσ fxFiles
        [⟨fxConvOk, fxFmtA⟩, ⟨fxConvEmpty, fxFmtB⟩]).1 = none :=
  (attemptConvertPath_empty_output_is_failure fxσ fxFiles ⟨fxConvOk, fxFmtA⟩
    ⟨fxConvEmpty, fxFmtB⟩ [] [fxFmtA, fxFmtB] rfl rfl).1 [⟨"o", []⟩] rfl rfl

/-- C3: each of the four hop-failure causes — a throwing `init()`, no
resolvable cached formats, a throwing conversion, and an empty output —
fails the hop; a failed hop reached after any successful earlier hops
nulls the whole `attemptConvertPath`; and after a failed attempt the
driving loop continues on the remaining candidates with the original,
unmodified file batch, so partial results of the aborted attempt are
never returned or merged. -/
theorem attemptConvertPath_hop_failure_returns_null (σ : Sys)
    (files : List FileData) (a b : ConvertPathNode) :
    ((lookupSt σ b.handler).ready = false → b.handler.initBeh = .error () →
      (hopStep σ files a b).result = none)
    ∧ ((lookupSt σ b.handler).ready = true → σ.cache.lookup b.handler.name = none →
      (hopStep σ files a b).result = none)
    ∧ (∀ sf e, (lookupSt σ b.handler).ready = true →
      σ.cache.lookup b.handler.name = some sf →
      b.handler.doConvert files
        (sf.find? fun c => c.mime = a.format.mime && c.«from») b.format = .error e →
      (hopStep σ files a b).result = none)
    ∧ (∀ sf files', (lookupSt σ b.handler).ready = true →
      σ.cache.lookup b.handler.name = some sf →
      b.handler.doConvert files
        (sf.find? fun c => c.mime = a.format.mime && c.«from») b.format = .ok files' →
      files'.any (fun c => c.bytes.isEmpty) = true →
      (hopStep σ files a b).result = none)
    ∧ (∀ (σ₀ : Sys) (f₀ : List FileData) (xs rest : List ConvertPathNode),
      runHops σ₀ f₀ (xs ++ [a]) = (some files, σ) →
      (hopStep σ files a b).result = none →
      (attemptConvertPath σ₀ f₀ (xs ++ a :: b :: rest)).1 = none)
    ∧ (∀ («to» : ConvertPathNode) (p : List ConvertPathNode)
        (ps : List (List ConvertPathNode)) (σ₁ : Sys) (f₁ : List FileData),
      (attemptConvertPath σ₁ f₁ (substFinal «to» p)).1 = none →
      (tryConvertRun σ₁ f₁ «to» (p :: ps)).result =
        (tryConvertRun (attemptConvertPath σ₁ f₁ (substFinal «to» p)).2
          f₁ «to» ps).result) := by
  refine ⟨?_, ?_, ?_, ?_, ?_, ?_⟩
  · intro hready hinit
    simp [hopStep, hready, hinit]
  · intro hready hcache
    simp [hopStep, hready, hcache, hopConvert]
  · intro sf e hready hcache hconv
    simp [hopStep, hready, hcache, hopConvert, hconv]
  · intro sf files' hready hcache hconv hempty
    simp [hopStep, hready, hcache, hopConvert, hconv, hempty]
  · intro σ₀ f₀ xs rest hreach hfail
    apply attemptConvertPath_none_of_runHops σ₀ f₀ _ (hopStep σ files a b).σ
    have hcomp := runHops_compose a (b :: rest) xs σ₀ f₀
    rw [hreach] at hcomp
    rw [hcomp]
    show runHops σ files (a :: b :: rest) = (none, (hopStep σ files a b).σ)
    rw [runHops_cons, hfail]
  · intro t p ps σ₁ f₁ hnone
    rcases hatt : attemptConvertPath σ₁ f₁ (substFinal t p) with ⟨res, σ'⟩
    rw [hatt] at hnone
    simp at hnone
    subst hnone
    rw [tryConvertRun_cons_none σ₁ f₁ t p ps σ' hatt]

/-- C3 (witness): a handler with a throwing `init()` fails its hop, and
the driving loop proceeds past the failed candidate with the original
batch. -/
theorem attemptConvertPath_hop_failure_returns_null_witness :
    (hopStep ⟨[], []⟩ fxFiles ⟨fxConvOk, fxFmtA⟩ ⟨fxInitErr, fxFmtB⟩).result = none
    ∧ (tryConvertRun ⟨[], []⟩ fxFiles fxC1To (fxC1Path :: [])).result =
        (tryConvertRun (attemptConvertPath ⟨[], []⟩ fxFiles
          (substFinal fxC1To fxC1Path)).2 fxFiles fxC1To []).result :=
  ⟨(attemptConvertPath_hop_failure_returns_null ⟨[], []⟩ fxFiles
      ⟨fxConvOk, fxFmtA⟩ ⟨fxInitErr, fxFmtB⟩).1 rfl rfl,
   (attemptConvertPath_hop_failure_returns_null ⟨[], []⟩ fxFiles
      ⟨fxConvOk, fxFmtA⟩ ⟨fxInitErr, fxFmtB⟩).2.2.2.2.2 fxC1To fxC1Path []
      ⟨[], []⟩ fxFiles rfl⟩

/-- C4: the driving loop of `tryConvertByTraversing` returns `null` on
an empty candidate sequence; returns the first successful attempt,
consuming no further candidates (the attempted list is exactly the one
substituted head); advances to the remaining candidates on failure (so
exhaustion of an all-failing sequence yields `null` by induction); when
it returns `null` it has attempted every yielded candidate; and
never attempts an identical path twice when the yielded candidates are
pairwise distinct and already carry the final-hop substitution (the
spec's description of `searchPath`). -/
theorem tryConvertByTraversing_first_success_and_exhaustion :
    (∀ (σ : Sys) (files : List FileData) («to» : ConvertPathNode),
      tryConvertRun σ files «to» [] = ⟨none, σ, []⟩)
    ∧ (∀ (σ : Sys) (files : List FileData) («to» : ConvertPathNode)
        (p : List ConvertPathNode) (rest : List (List ConvertPathNode))
        (r : List FileData × List ConvertPathNode) (σ' : Sys),
      attemptConvertPath σ files (substFinal «to» p) = (some r, σ') →
      tryConvertRun σ files «to» (p :: rest) = ⟨some r, σ', [substFinal «to» p]⟩)
    ∧ (∀ (σ : Sys) (files : List FileData) («to» : ConvertPathNode)
        (p : List ConvertPathNode) (rest : List (List ConvertPathNode)) (σ' : Sys),
      attemptConvertPath σ files (substFinal «to» p) = (none, σ') →
      tryConvertRun σ files «to» (p :: rest) =
        ⟨(tryConvertRun σ' files «to» rest).result,
         (tryConvertRun σ' files «to» rest).σ,
         substFinal «to» p :: (tryConvertRun σ' files «to» rest).attempted⟩)
    ∧ (∀ (σ : Sys) (files : List FileData) («to» : ConvertPathNode)
        (paths : List (List ConvertPathNode)),
      (tryConvertRun σ files «to» paths).result = none →
      (tryConvertRun σ files «to» paths).attempted = paths.map (substFinal «to»))
    ∧ (∀ (σ : Sys) (files : List FileData) («to» : ConvertPathNode)
        (paths : List (List ConvertPathNode)),
      paths.Nodup → (∀ p ∈ paths, substFinal «to» p = p) →
      (tryConvertRun σ files «to» paths).attempted.Nodup) := by
  refine ⟨fun σ files t => rfl, tryConvertRun_cons_some, tryConvertRun_cons_none,
    ?_, ?_⟩
  · intro σ files t paths
    induction paths generalizing σ with
    | nil => intro _; rfl
    | cons p rest ih =>
      intro hnone
      rcases hatt : attemptConvertPath σ files (substFinal t p) with ⟨res, σ'⟩
      cases res with
      | some r =>
        rw [tryConvertRun_cons_some σ files t p rest r σ' hatt] at hnone
        cases hnone
      | none =>
        rw [tryConvertRun_cons_none σ files t p rest σ' hatt] at hnone ⊢
        simpa using ih σ' hnone
  · intro σ files t paths hnd hfix
    obtain ⟨k, hk, hatr⟩ := tryConvertRun_attempted_take paths σ files t
    rw [hatr]
    have hmap : (paths.take k).map (substFinal t) = paths.take k := by
      rw [List.map_congr_left fun p hp => hfix p (List.mem_of_mem_take hp)]
      exact List.map_id _
    rw [hmap]
    exact hnd.sublist (List.take_sublist k paths)

/-- C4 (witness): a first candidate that succeeds is returned with no
further candidate consumed, and a distinct pre-substituted candidate
list is attempted without repetition. -/
theorem tryConvertByTraversing_first_success_and_exhaustion_witness :
    tryConvertRun fxσ fxFiles fxC1To
        ([⟨fxConvOk, fxFmtA⟩, ⟨fxConvOk, fxFmtB⟩] :: [fxC1Path]) =
      ⟨some (fxFiles, [⟨fxConvOk, fxFmtA⟩, ⟨fxConvOk, fxFmtB⟩]), fxσ,
       [[⟨fxConvOk, fxFmtA⟩, ⟨fxConvOk, fxFmtB⟩]]⟩
    ∧ (tryConvertRun fxσ fxFiles fxC1To [fxC1Path]).attempted.Nodup :=
  ⟨tryConvertByTraversing_first_success_and_exhaustion.2.1 fxσ fxFiles fxC1To
      [⟨fxConvOk, fxFmtA⟩, ⟨fxConvOk, fxFmtB⟩] [fxC1Path]
      (fxFiles, [⟨fxConvOk, fxFmtA⟩, ⟨fxConvOk, fxFmtB⟩]) fxσ rfl,
   tryConvertByTraversing_first_success_and_exhaustion.2.2.2.2 fxσ fxFiles fxC1To
      [fxC1Path] (by simp)
      (fun p hp => by rw [List.mem_singleton.mp hp]; rfl)⟩

/-- C5: `buildOptionList` invokes a handler's `init()` only on a cache
miss — a cached entry means no initialization — and a thrown `init()` is
non-fatal: an uncached handler whose `init()` throws contributes nothing
and is skipped, the option list and final cache being exactly those of
the registry without that handler. -/
theorem buildOptionList_lazy_init_and_nonfatal_failure
    (cache : List (String × List FileFormat)) (h : HandlerBeh)
    (pre post : List HandlerBeh) :
    ((cache.lookup h.name).isSome → (buildStep cache h).2.2 = false)
    ∧ (h.initBeh = .error () →
       ((buildOptionList cache pre).2.lookup h.name) = none →
       buildOptionList cache (pre ++ h :: post) = buildOptionList cache (pre ++ post)) := by
  constructor
  · intro hsome
    rcases hl : cache.lookup h.name with _ | sf
    · rw [hl] at hsome; cases hsome
    · simp [buildStep, hl]
  · intro herr hmiss
    have hstep : buildStep (buildOptionList cache pre).2 h =
        ([], (buildOptionList cache pre).2, true) := by
      simp [buildStep, hmiss, herr]
    rw [buildOptionList_append pre (h :: post) cache,
        buildOptionList_append pre post cache]
    simp only [buildOptionList, hstep]
    simp

/-- C5 (witness): a cached handler is not initialized, and dropping an
uncached handler with a throwing `init()` leaves the build unchanged. -/
theorem buildOptionList_lazy_init_and_nonfatal_failure_witness :
    (buildStep [("c", [fxFmtA])] fxCached).2.2 = false
    ∧ buildOptionList [("c", [fxFmtA])] ([fxCached] ++ fxInitErr :: [fxConvOk]) =
        buildOptionList [("c", [fxFmtA])] ([fxCached] ++ [fxConvOk]) :=
  ⟨(buildOptionList_lazy_init_and_nonfatal_failure [("c", [fxFmtA])] fxCached
      [] []).1 rfl,
   (buildOptionList_lazy_init_and_nonfatal_failure [("c", [fxFmtA])] fxInitErr
      [fxCached] [fxConvOk]).2 rfl rfl⟩

/-- C6 (amended): when the target handler's resolved cached formats
contain no input-capable descriptor matching the previous hop's mime,
`attemptConvertPath` does not abort up front; it invokes the handler's
`doConvert` with an `undefined` input descriptor.  The attempt is
aborted (null) when that conversion then throws — as every in-repository
handler does on a non-empty batch by dereferencing the missing
descriptor — but a conversion that succeeds with a non-empty payload
despite the missing descriptor lets the hop succeed. -/
theorem missing_input_descriptor_behavior (σ : Sys) (files : List FileData)
    (a b : ConvertPathNode) (rest : List ConvertPathNode) (sf : List FileFormat)
    (hready : (lookupSt σ b.handler).ready = true)
    (hcache : σ.cache.lookup b.handler.name = some sf)
    (hfind : (sf.find? fun c => c.mime = a.format.mime && c.«from») = none) :
    (∀ e, b.handler.doConvert files none b.format = .error e →
      hopStep σ files a b = ⟨none, σ, false⟩
      ∧ (attemptConvertPath σ files (a :: b :: rest)).1 = none)
    ∧ (∀ files', b.handler.doConvert files none b.format = .ok files' →
      files'.any (fun c => c.bytes.isEmpty) = false →
      hopStep σ files a b = ⟨some files', σ, false⟩) := by
  constructor
  · intro e hconv
    have h1 : hopStep σ files a b = ⟨none, σ, false⟩ := by
      simp [hopStep, hready, hcache, hopConvert, hfind, hconv]
    refine ⟨h1, ?_⟩
    apply attemptConvertPath_none_of_runHops σ files _ σ
    rw [runHops_cons, h1]
  · intro files' hconv hne
    simp [hopStep, hready, hcache, hopConvert, hfind, hconv, hne]

/-- C6 (counterexample): the `imagesToPdf` hop whose cached formats
contain no descriptor for the previous hop's `image/gif` mime does NOT
return `null`: on an empty batch its `doConvert` never dereferences the
`undefined` input descriptor and succeeds with the non-empty empty-page
PDF skeleton, so the attempt succeeds. -/
theorem missing_input_descriptor_cx :
    (⟨[("imagesToPdf", imagesToPdfFormats)], []⟩ : Sys).cache.lookup "imagesToPdf"
        = some imagesToPdfFormats
    ∧ (imagesToPdfFormats.find? fun c => c.mime = fxGif.mime && c.«from») = none
    ∧ (attemptConvertPath ⟨[("imagesToPdf", imagesToPdfFormats)], []⟩ []
        fxI2PPath).1.isSome = true :=
  ⟨rfl, by decide, by decide⟩

/-- C6 (witness): with a missing descriptor a throwing conversion nulls
the attempt, and a succeeding conversion that ignores the descriptor
completes the hop. -/
theorem missing_input_descriptor_behavior_witness :
    (hopStep fxσ fxFiles ⟨fxConvOk, fxGif⟩ ⟨fxConvErr, fxFmtB⟩ = ⟨none, fxσ, false⟩
     ∧ (attemptConvertPath fxσ fxFiles
          [⟨fxConvOk, fxGif⟩, ⟨fxConvErr, fxFmtB⟩]).1 = none)
    ∧ hopStep fxσ fxFiles ⟨fxConvOk, fxGif⟩ ⟨fxConvIgnore, fxFmtB⟩ =
        ⟨some [⟨"o", [1]⟩], fxσ, false⟩ :=
  ⟨(missing_input_descriptor_behavior fxσ fxFiles ⟨fxConvOk, fxGif⟩
      ⟨fxConvErr, fxFmtB⟩ [] [fxFmtA, fxFmtB] rfl rfl (by decide)).1 "fail" rfl,
   (missing_input_descriptor_behavior fxσ fxFiles ⟨fxConvOk, fxGif⟩
      ⟨fxConvIgnore, fxFmtB⟩ [] [] rfl rfl rfl).2 [⟨"o", [1]⟩] rfl rfl⟩

/-- C7: memoization of handler initialization — `buildOptionList` never
invokes `init()` for a handler whose name is present in the format
cache; a `LazyHandler` holding an already-ready instance copies the
memoized fields without re-invoking the instance's `init()`; and a hop
of `attemptConvertPath` never invokes `init()` on a handler whose
readiness flag (set by its previous successful initialization) is
true. -/
theorem handler_init_memoization :
    (∀ (cache : List (String × List FileFormat)) (h : HandlerBeh),
      (cache.lookup h.name).isSome → (buildStep cache h).2.2 = false)
    ∧ (∀ (s : LazyHandlerSt) (i : InnerHandler) (imp : Except Unit InnerHandler),
      s.inst = some i → i.ready = true →
      lazyInit s imp =
        (.ok { s with ready := i.ready, supportedFormats := i.supportedFormats },
         false))
    ∧ (∀ (σ : Sys) (files : List FileData) (a b : ConvertPathNode),
      (lookupSt σ b.handler).ready = true →
      (hopStep σ files a b).initInvoked = false) := by
  refine ⟨?_, ?_, ?_⟩
  · intro cache h hsome
    rcases hl : cache.lookup h.name with _ | sf
    · rw [hl] at hsome; cases hsome
    · simp [buildStep, hl]
  · intro s i imp hinst hready
    simp [lazyInit, hinst, hready]
  · intro σ files a b hready
    rw [hopStep]
    simp only [hready, if_true]
    exact hopConvert_initInvoked σ files a b _ false

/-- C7 (witness): a cached handler, a ready lazy instance, and a ready
hop handler are all served without a fresh `init()`. -/
theorem handler_init_memoization_witness :
    (buildStep [("c", [fxFmtA])] fxCached).2.2 = false
    ∧ lazyInit fxLazy (.error ()) =
        (.ok { fxLazy with
                 ready := fxInner.ready,
                 supportedFormats := fxInner.supportedFormats }, false)
    ∧ (hopStep fxσ fxFiles ⟨fxConvOk, fxFmtA⟩ ⟨fxConvOk, fxFmtB⟩).initInvoked
        = false :=
  ⟨handler_init_memoization.1 [("c", [fxFmtA])] fxCached rfl,
   handler_init_memoization.2.1 fxLazy fxInner (.error ()) rfl rfl,
   handler_init_memoization.2.2 fxσ fxFiles ⟨fxConvOk, fxFmtA⟩
     ⟨fxConvOk, fxFmtB⟩ rfl⟩

/-- Running the batch loop under a cancellation trace whose first set
flag is at check `k` (counting from item index `j`) equals running the
first `k` items without cancellation, marking cancellation iff the batch
was longer than `k`. -/
theorem convertBatchAux_cancel_take
    (sp : ConvertPathNode → ConvertPathNode → List (List ConvertPathNode))
    (ao : List ConvertPathNode) (io : ConvertPathNode)
    (go : Option ConvertPathNode) (cancel : Nat → Bool) :
    ∀ (files : List BatchItem) (k j : Nat) (σ : Sys) (idAcc outAcc : List OutFile),
    k ≤ files.length →
    (∀ i, i < k → cancel (j + i) = false) →
    (k < files.length → cancel (j + k) = true) →
    convertBatchAux sp ao io go cancel j σ idAcc outAcc files =
      ((convertBatchAux sp ao io go (fun _ => false) j σ idAcc outAcc (files.take k)).1,
       (convertBatchAux sp ao io go (fun _ => false) j σ idAcc outAcc (files.take k)).2.1,
       decide (k < files.length),
       (convertBatchAux sp ao io go (fun _ => false) j σ idAcc outAcc (files.take k)).2.2.2) := by
  intro files
  induction files with
  | nil =>
    intro k j σ idAcc outAcc hk _ _
    have hk0 : k = 0 := Nat.le_zero.mp hk
    subst hk0
    simp [convertBatchAux]
  | cons bf rest ih =>
    intro k j σ idAcc outAcc hk hbefore hat
    cases k with
    | zero =>
      have hc : cancel j = true := by simpa using hat (by simp)
      simp [convertBatchAux, hc]
    | succ k' =>
      have hc : cancel j = false := by simpa using hbefore 0 (Nat.succ_pos k')
      have hk' : k' ≤ rest.length := by simpa using hk
      have hbefore' : ∀ i, i < k' → cancel (j + 1 + i) = false := by
        intro i hi
        have := hbefore (i + 1) (Nat.succ_lt_succ hi)
        simpa [Nat.add_assoc, Nat.add_comm 1 i] using this
      have hat' : k' < rest.length → cancel (j + 1 + k') = true := by
        intro hlt
        have := hat (by simpa using Nat.succ_lt_succ hlt)
        simpa [Nat.add_assoc, Nat.add_comm 1 k'] using this
      have hdec : decide (k' + 1 < rest.length + 1) = decide (k' < rest.length) := by
        simp [Nat.succ_lt_succ_iff]
      simp only [convertBatchAux, hc, Bool.false_eq_true, if_false, List.take_succ_cons,
        List.length_cons]
      rw [hdec]
      exact ih k' (j + 1) _ _ _ hk' hbefore' hat'

/-- C8: cancellation is read only at whole-file granularity.  If the
flag is unset at the checks before the first `k` files and set at the
check before file `k`, the whole batch conversion equals the uncancelled
conversion of exactly the first `k` files — each of those, including the
one in flight when the flag was raised, is fully converted, and no later
file is touched — with the cancellation outcome recorded; and
everything delivered to the user is always the identity downloads
followed by every accumulated output file, so outputs already produced
are still delivered after cancellation. -/
theorem cancellation_at_file_granularity
    (sp : ConvertPathNode → ConvertPathNode → List (List ConvertPathNode))
    (ao : List ConvertPathNode) (io : ConvertPathNode)
    (go : Option ConvertPathNode) (cancel : Nat → Bool) (σ : Sys)
    (files : List BatchItem) (k : Nat)
    (hk : k ≤ files.length)
    (hbefore : ∀ i, i < k → cancel i = false)
    (hat : k < files.length → cancel k = true) :
    convertBatch sp ao io go cancel σ files =
      ⟨(convertBatch sp ao io go (fun _ => false) σ (files.take k)).identityDownloads,
       (convertBatch sp ao io go (fun _ => false) σ (files.take k)).allOutputFiles,
       decide (k < files.length),
       (convertBatch sp ao io go (fun _ => false) σ (files.take k)).identityDownloads ++
         (convertBatch sp ao io go (fun _ => false) σ (files.take k)).allOutputFiles,
       (convertBatch sp ao io go (fun _ => false) σ (files.take k)).σ⟩
    ∧ (convertBatch sp ao io go cancel σ files).delivered =
        (convertBatch sp ao io go cancel σ files).identityDownloads ++
          (convertBatch sp ao io go cancel σ files).allOutputFiles := by
  have haux := convertBatchAux_cancel_take sp ao io go cancel files k 0 σ [] []
    hk (by simpa using hbefore) (by simpa using hat)
  constructor
  · simp only [convertBatch, haux]
  · simp [convertBatch]

/-- C8 (witness): a two-file batch cancelled at the check before the
second file processes exactly the first file and delivers what it
produced. -/
theorem cancellation_at_file_granularity_witness :
    convertBatch fxNoPaths [] ⟨fxConvOk, fxFmtA⟩ (some ⟨fxConvOk, fxFmtA⟩)
        fxCancelAt1 fxσ fxBatch =
      ⟨(convertBatch fxNoPaths [] ⟨fxConvOk, fxFmtA⟩ (some ⟨fxConvOk, fxFmtA⟩)
          (fun _ => false) fxσ (fxBatch.take 1)).identityDownloads,
       (convertBatch fxNoPaths [] ⟨fxConvOk, fxFmtA⟩ (some ⟨fxConvOk, fxFmtA⟩)
          (fun _ => false) fxσ (fxBatch.take 1)).allOutputFiles,
       decide (1 < fxBatch.length),
       (convertBatch fxNoPaths [] ⟨fxConvOk, fxFmtA⟩ (some ⟨fxConvOk, fxFmtA⟩)
          (fun _ => false) fxσ (fxBatch.take 1)).identityDownloads ++
         (convertBatch fxNoPaths [] ⟨fxConvOk, fxFmtA⟩ (some ⟨fxConvOk, fxFmtA⟩)
            (fun _ => false) fxσ (fxBatch.take 1)).allOutputFiles,
       (convertBatch fxNoPaths [] ⟨fxConvOk, fxFmtA⟩ (some ⟨fxConvOk, fxFmtA⟩)
          (fun _ => false) fxσ (fxBatch.take 1)).σ⟩
    ∧ (convertBatch fxNoPaths [] ⟨fxConvOk, fxFmtA⟩ (some ⟨fxConvOk, fxFmtA⟩)
          fxCancelAt1 fxσ fxBatch).delivered =
        (convertBatch fxNoPaths [] ⟨fxConvOk, fxFmtA⟩ (some ⟨fxConvOk, fxFmtA⟩)
            fxCancelAt1 fxσ fxBatch).identityDownloads ++
          (convertBatch fxNoPaths [] ⟨fxConvOk, fxFmtA⟩ (some ⟨fxConvOk, fxFmtA⟩)
              fxCancelAt1 fxσ fxBatch).allOutputFiles :=
  cancellation_at_file_granularity fxNoPaths [] ⟨fxConvOk, fxFmtA⟩
    (some ⟨fxConvOk, fxFmtA⟩) fxCancelAt1 fxσ fxBatch 1
    (by decide) (by decide) (fun _ => rfl)

/-- C9: `pdftoimgHandler.doConvert` throws `"Invalid output format."`
for every output descriptor whose format code is neither `"png"` nor
`"jpg"`, before touching any file; the handler's own declared JPEG
output descriptor (third in its list) carries format code `"jpeg"` with
the output flag set, so a conversion requested through that declared
descriptor always fails with that error. -/
theorem pdftoimg_invalid_output_format :
    (∀ (render : List Nat → String → List (List Nat)) (files : List FileData)
       (infmt : Option FileFormat) (ofmt : FileFormat),
      ofmt.format ≠ "png" → ofmt.format ≠ "jpg" →
      pdftoimgDoConvert render files infmt ofmt = .error "Invalid output format.")
    ∧ pdftoimgSupportedFormats.get? 2 = some pdftoimgJpeg
    ∧ pdftoimgJpeg.format = "jpeg"
    ∧ pdftoimgJpeg.«to» = true
    ∧ (∀ (render : List Nat → String → List (List Nat)) (files : List FileData)
       (infmt : Option FileFormat),
      pdftoimgDoConvert render files infmt pdftoimgJpeg =
        .error "Invalid output format.")
    ∧ (∀ render, (pdftoimgHandler render).supportedFormats =
        some pdftoimgSupportedFormats) := by
  have hmain : ∀ (render : List Nat → String → List (List Nat)) (files : List FileData)
      (infmt : Option FileFormat) (ofmt : FileFormat),
      ofmt.format ≠ "png" → ofmt.format ≠ "jpg" →
      pdftoimgDoConvert render files infmt ofmt = .error "Invalid output format." := by
    intro render files infmt ofmt h1 h2
    simp [pdftoimgDoConvert, h1, h2]
  exact ⟨hmain, rfl, rfl, rfl,
    fun render files infmt => hmain render files infmt _ (by decide) (by decide),
    fun render => rfl⟩

/-- C9 (witness): a BMP output descriptor is rejected with the exact
error. -/
theorem pdftoimg_invalid_output_format_witness :
    pdftoimgDoConvert fxPRender [] none
        { mime := "image/bmp", format := "bmp", «to» := true } =
      .error "Invalid output format." :=
  pdftoimg_invalid_output_format.1 fxPRender [] none
    { mime := "image/bmp", format := "bmp", «to» := true } (by decide) (by decide)

/-- C10: a batch file whose resolved output option has the same mime as
the selected input option is answered by downloading the original input
bytes unchanged under that mime; the file neither fails nor produces
converted outputs, the path-search/conversion machinery is not invoked,
and the process state is untouched. -/
theorem identity_conversion_bypasses_routing
    (sp : ConvertPathNode → ConvertPathNode → List (List ConvertPathNode))
    (allOpts : List ConvertPathNode) (inputOption : ConvertPathNode)
    (globalOut : Option ConvertPathNode) (σ : Sys) (bf : BatchItem)
    (opt : ConvertPathNode)
    (hres : resolveOutputOption allOpts globalOut bf = some opt)
    (hmime : inputOption.format.mime = opt.format.mime) :
    processOneFile sp allOpts inputOption globalOut σ bf =
      ⟨some ⟨bf.name, bf.bytes, inputOption.format.mime⟩, [], false, false, σ⟩ := by
  simp [processOneFile, hres, hmime]

/-- C10 (witness): a file targeting the same mime as the input option is
delivered as its original bytes with no routing. -/
theorem identity_conversion_bypasses_routing_witness :
    processOneFile fxNoPaths [] ⟨fxConvOk, fxFmtA⟩ (some ⟨fxConvOk, fxFmtA⟩)
        fxσ ⟨"x.a", [1], none⟩ =
      ⟨some ⟨"x.a", [1], "text/a"⟩, [], false, false, fxσ⟩ :=
  identity_conversion_bypasses_routing fxNoPaths [] ⟨fxConvOk, fxFmtA⟩
    (some ⟨fxConvOk, fxFmtA⟩) fxσ ⟨"x.a", [1], none⟩ ⟨fxConvOk, fxFmtA⟩ rfl rfl
